import Mathlib

/-!
Verification of the matrix-free invertable-operator engine
(`include/bout/invertable_operator.hxx`).

Shallow embedding conventions:
* `BoutReal` scalars are modelled as rationals `ℚ` so that every operation
  stays executable and decidable.
* A `GridField` is represented by the list of its local elements in the
  grid-iteration order used by `for (const auto &i : field)`.
* A PETSc `Vec` is likewise the list of the entries exposed by
  `VecGetArray` / `VecGetArrayRead`.
* The PETSc solver (`KSPSolve` + `KSPGetConvergedReason`) is an external
  collaborator: it is passed in as a function from the packed right-hand
  side to a solution vector together with an integer convergence reason.
* An out-of-bounds access on the raw array exposed by `VecGetArray`
  (undefined behaviour in the C++ source) is modelled as `Option.none`.
-/

/-- Local data of a BOUT++ field (Field2D/Field3D/FieldPerp): its scalar
elements listed in grid-iteration order. -/
abbrev GridField := List ℚ

/-- Contents of a PETSc `Vec` as exposed by `VecGetArray`. -/
abbrev PetscVec := List ℚ

/-- `fieldToPetscVec(in, out)` from the source: walks the field's elements in
grid-iteration order with a running `counter`, writing `vecData[counter] = in[i]`.
Consuming one buffer cell per field element models the counter-indexed write;
running past the end of the `Vec`'s array is undefined behaviour, modelled as
`none`.  Buffer cells beyond the field's element count keep their old values. -/
def fieldToPetscVec : GridField → PetscVec → Option PetscVec
  | [], vecData => some vecData
  | _x :: _xs, [] => none
  | x :: xs, _b :: bs => (fieldToPetscVec xs bs).map (fun r => x :: r)

/-- `petscVecToField(in, out)` from the source: walks the field's elements in
grid-iteration order with a running `counter`, reading `out[i] = vecData[counter]`.
Every element of `out` is overwritten in order; reading past the end of the
`Vec`'s array is undefined behaviour, modelled as `none`. -/
def petscVecToField : PetscVec → GridField → Option GridField
  | _vecData, [] => some []
  | [], _x :: _xs => none
  | b :: bs, _x :: xs => (petscVecToField bs xs).map (fun r => b :: r)

theorem fieldToPetscVec_eq_of_le (f : GridField) (buf : PetscVec)
    (h : f.length ≤ buf.length) :
    fieldToPetscVec f buf = some (f ++ buf.drop f.length) := by
  induction f generalizing buf with
  | nil => simp [fieldToPetscVec]
  | cons x xs ih =>
    cases buf with
    | nil => simp at h
    | cons b bs =>
      simp only [List.length_cons, Nat.add_le_add_iff_right] at h
      simp [fieldToPetscVec, ih bs h]

theorem fieldToPetscVec_none_of_lt (f : GridField) (buf : PetscVec)
    (h : buf.length < f.length) :
    fieldToPetscVec f buf = none := by
  induction f generalizing buf with
  | nil => simp at h
  | cons x xs ih =>
    cases buf with
    | nil => rfl
    | cons b bs =>
      simp only [List.length_cons, Nat.add_lt_add_iff_right] at h
      simp [fieldToPetscVec, ih bs h]

theorem petscVecToField_eq_of_le (buf : PetscVec) (out : GridField)
    (h : out.length ≤ buf.length) :
    petscVecToField buf out = some (buf.take out.length) := by
  induction out generalizing buf with
  | nil => cases buf <;> simp [petscVecToField]
  | cons x xs ih =>
    cases buf with
    | nil => simp at h
    | cons b bs =>
      simp only [List.length_cons, Nat.add_le_add_iff_right] at h
      simp [petscVecToField, ih bs h]

/-- C1: packing a field with `fieldToPetscVec` into a compatible buffer and
unpacking the result with `petscVecToField` into a freshly allocated field of
the same shape restores the original field element-for-element; both copies
run in grid-iteration order and are exact scalar copies. -/
theorem c1_pack_unpack_roundtrip (f : GridField) (buf : PetscVec)
    (hbuf : buf.length = f.length) :
    ∃ packed, fieldToPetscVec f buf = some packed ∧
      petscVecToField packed (List.replicate f.length (0 : ℚ)) = some f := by
  refine ⟨f, ?_, ?_⟩
  · rw [fieldToPetscVec_eq_of_le f buf (le_of_eq hbuf.symm)]
    rw [← hbuf, List.drop_length, List.append_nil]
  · rw [petscVecToField_eq_of_le f (List.replicate f.length 0) (by simp)]
    simp

/-- Witness for C1 at a concrete field and buffer. -/
theorem c1_pack_unpack_roundtrip_witness :
    ∃ packed, fieldToPetscVec [(1 : ℚ), 2, 3] [0, 0, 0] = some packed ∧
      petscVecToField packed (List.replicate ([(1 : ℚ), 2, 3]).length (0 : ℚ)) =
        some [(1 : ℚ), 2, 3] :=
  c1_pack_unpack_roundtrip [1, 2, 3] [0, 0, 0] rfl

/-- The single shell-matrix operation the source registers via
`MatShellSetOperation(matOperator, MATOP_MULT, functionWrapper)`. -/
inductive MatOp
  | mult
  deriving DecidableEq, Repr

/-- State of one `InvertableOperator<T>` instance.  `localmesh` is the local
element count of a field allocated on the instance's mesh; `matLocalSize` is
the local size passed to `MatCreateShell`; `rhs`/`lhs` are the PETSc vectors
created by `MatCreateVecs`; `matOps` records the operations registered on the
shell matrix; `doneSetup` is the setup-complete flag. -/
structure InvertableOperator where
  operatorFunction : GridField → GridField
  localmesh : ℕ
  matLocalSize : ℕ
  matOps : List MatOp
  rhs : PetscVec
  lhs : PetscVec
  doneSetup : Bool

/-- The no-op default operator from the source: `identity(in) = in`. -/
def identity (x : GridField) : GridField := x

/-- The constructor: stores the supplied functor (default `identity`),
records the mesh, and leaves `doneSetup` false; no PETSc state is created. -/
def InvertableOperator.make (localmesh : ℕ)
    (func : GridField → GridField := identity) : InvertableOperator :=
  { operatorFunction := func, localmesh := localmesh, matLocalSize := 0,
    matOps := [], rhs := [], lhs := [], doneSetup := false }

/-- `setOperatorFunction`: overrides the stored functor in place. -/
def InvertableOperator.setOperatorFunction (s : InvertableOperator)
    (func : GridField → GridField) : InvertableOperator :=
  { s with operatorFunction := func }

/-- `operator()` / `apply`: invokes the currently bound functor. -/
def InvertableOperator.apply (s : InvertableOperator) (input : GridField) :
    GridField :=
  s.operatorFunction input

/-- Return codes of the successive PETSc calls made by `setup()`, in source
order; `0` means success, as checked by `CHKERRQ`.  `kspOptionsA` stands for
`KSPSetOptionsPrefix` and `kspOptionsB` for `KSPSetFromOptions`. -/
structure PetscCalls where
  matCreateShell : ℤ
  matCreateVecs : ℤ
  matShellSetOperation : ℤ
  kspCreate : ℤ
  kspSetOperators : ℤ
  kspOptionsA : ℤ
  kspOptionsB : ℤ
  kspSetUp : ℤ
  deriving DecidableEq, Repr

/-- Outcome of `setup()`: a thrown `BoutException` for a second setup, an
early `CHKERRQ` return carrying the PETSc error code, or success.  Each
outcome carries the state of the instance when control leaves `setup`. -/
inductive SetupOutcome
  | threwAlreadySetup (s : InvertableOperator)
  | petscError (code : ℤ) (s : InvertableOperator)
  | ok (s : InvertableOperator)

/-- `setup()` from the source: throws if `doneSetup` is already true;
otherwise counts the local size from a temporary field on the mesh, creates
the shell matrix with context `this`, creates compatible `rhs`/`lhs` vectors,
registers the single `MATOP_MULT` operation, creates and configures the KSP
solver, and only then sets `doneSetup = true`.  Every PETSc call is guarded
by `CHKERRQ`, which returns the error code immediately on failure. -/
def InvertableOperator.setup (s : InvertableOperator) (pc : PetscCalls) :
    SetupOutcome :=
  if s.doneSetup then SetupOutcome.threwAlreadySetup s
  else
    let nlocal := s.localmesh
    if pc.matCreateShell ≠ 0 then SetupOutcome.petscError pc.matCreateShell s
    else
      let s1 := { s with matLocalSize := nlocal }
      if pc.matCreateVecs ≠ 0 then SetupOutcome.petscError pc.matCreateVecs s1
      else
        let s2 := { s1 with rhs := List.replicate nlocal 0,
                            lhs := List.replicate nlocal 0 }
        if pc.matShellSetOperation ≠ 0 then
          SetupOutcome.petscError pc.matShellSetOperation s2
        else
          let s3 := { s2 with matOps := [MatOp.mult] }
          if pc.kspCreate ≠ 0 then SetupOutcome.petscError pc.kspCreate s3
          else if pc.kspSetOperators ≠ 0 then
            SetupOutcome.petscError pc.kspSetOperators s3
          else if pc.kspOptionsA ≠ 0 then
            SetupOutcome.petscError pc.kspOptionsA s3
          else if pc.kspOptionsB ≠ 0 then
            SetupOutcome.petscError pc.kspOptionsB s3
          else if pc.kspSetUp ≠ 0 then SetupOutcome.petscError pc.kspSetUp s3
          else SetupOutcome.ok { s3 with doneSetup := true }

/-- Outcome of `invert()`: the use-before-setup `BoutException`, undefined
behaviour from an out-of-bounds marshalling access, the solve-failed
`BoutException` carrying the convergence reason, or the fresh solution
field. -/
inductive InvertOutcome
  | threwNotSetup
  | outOfBounds
  | threwSolveFailed (reason : ℤ)
  | ok (lhsField : GridField)
  deriving DecidableEq, Repr

/-- `invert(rhsField)` from the source: throws if `doneSetup` is false; packs
the right-hand side into the session's `rhs` vector; runs `KSPSolve` (the
external backend `kspSolve`, returning the new contents of `lhs` and the
`KSPGetConvergedReason` value); throws `KSPSolve failed with reason %d` when
the reason is non-positive; otherwise allocates a fresh field on the mesh,
unpacks the solution vector into it and returns it. -/
def InvertableOperator.invert (s : InvertableOperator)
    (kspSolve : PetscVec → PetscVec × ℤ) (rhsField : GridField) :
    InvertOutcome :=
  if s.doneSetup = false then InvertOutcome.threwNotSetup
  else
    match fieldToPetscVec rhsField s.rhs with
    | none => InvertOutcome.outOfBounds
    | some rhsVec =>
      let res := kspSolve rhsVec
      if res.2 ≤ 0 then InvertOutcome.threwSolveFailed res.2
      else
        match petscVecToField res.1 (List.replicate s.localmesh 0) with
        | none => InvertOutcome.outOfBounds
        | some lhsField => InvertOutcome.ok lhsField

/-- `functionWrapper(m, v1, v2)` from the source: recovers the instance from
the matrix context, declares and allocates a scratch field `tmpField` on the
mesh (one `allocate()` call on every invocation — counted in the result),
unpacks `v1` into it, applies the currently bound functor through
`ctx->operator()`, and packs the resulting field into `v2`. -/
def InvertableOperator.functionWrapper (ctx : InvertableOperator)
    (v1 v2 : PetscVec) : Option (PetscVec × ℕ) :=
  let tmpField : GridField := List.replicate ctx.localmesh 0
  let allocCount : ℕ := 1
  match petscVecToField v1 tmpField with
  | none => none
  | some tmpF =>
    let tmpField2 := ctx.apply tmpF
    match fieldToPetscVec tmpField2 v2 with
    | none => none
    | some v2Out => some (v2Out, allocCount)

/-- Maximum of the absolute values of a field's elements, the
`max(abs(f), true)` reduction of the source (single-process model). -/
def maxAbs (l : List ℚ) : ℚ := l.foldr (fun x m => max |x| m) 0

/-- `verify(rhs, tol)` from the source, parameterised by the CHECK level of
the build: with `CHECK > 1` it computes `invert(rhs)`, re-applies the bound
operator, and returns whether the maximum absolute difference against `rhs`
is strictly below `tol`; with `CHECK ≤ 1` it returns true without solving.
`none` models a propagated exception or undefined behaviour from `invert`. -/
def InvertableOperator.verify (s : InvertableOperator) (check : ℕ)
    (kspSolve : PetscVec → PetscVec × ℤ) (rhs : GridField)
    (tol : ℚ := 1 / 100000) : Option Bool :=
  if 1 < check then
    match s.invert kspSolve rhs with
    | InvertOutcome.ok result =>
      let applied := s.apply result
      let maxDiff := maxAbs (List.zipWith (fun p q => p - q) applied rhs)
      some (decide (maxDiff < tol))
    | _ => none
  else some true

theorem invert_notSetup (s : InvertableOperator) (h : s.doneSetup = false)
    (kspSolve : PetscVec → PetscVec × ℤ) (b : GridField) :
    s.invert kspSolve b = InvertOutcome.threwNotSetup := by
  simp [InvertableOperator.invert, h]

set_option maxHeartbeats 1000000 in
theorem setup_ok_spec (s : InvertableOperator) (pc : PetscCalls)
    (t : InvertableOperator) (h : s.setup pc = SetupOutcome.ok t) :
    s.doneSetup = false ∧
    t = { s with matLocalSize := s.localmesh,
                 rhs := List.replicate s.localmesh 0,
                 lhs := List.replicate s.localmesh 0,
                 matOps := [MatOp.mult],
                 doneSetup := true } := by
  simp only [InvertableOperator.setup] at h
  split_ifs at h with h0 h1 h2 h3 h4 h5 h6 h7 h8 <;> simp_all

set_option maxHeartbeats 1000000 in
theorem setup_petscError_spec (s : InvertableOperator) (pc : PetscCalls)
    (c : ℤ) (t : InvertableOperator)
    (h : s.setup pc = SetupOutcome.petscError c t) :
    s.doneSetup = false ∧ t.doneSetup = false := by
  simp only [InvertableOperator.setup] at h
  split_ifs at h with h0 h1 h2 h3 h4 h5 h6 h7 h8 <;>
    simp only [reduceCtorEq, SetupOutcome.petscError.injEq] at h <;>
    obtain ⟨hc, ht⟩ := h <;> subst ht <;>
    simp only [Bool.not_eq_true] at h0 <;> exact ⟨h0, h0⟩

set_option maxHeartbeats 1000000 in
theorem setup_not_alreadySetup (s : InvertableOperator)
    (h : s.doneSetup = false) (pc : PetscCalls) (u : InvertableOperator) :
    s.setup pc ≠ SetupOutcome.threwAlreadySetup u := by
  simp only [InvertableOperator.setup]
  split_ifs <;> simp_all

theorem functionWrapper_spec (s : InvertableOperator) (v1 v2 : PetscVec)
    (h1 : s.localmesh ≤ v1.length)
    (h2 : (s.apply (v1.take s.localmesh)).length ≤ v2.length) :
    s.functionWrapper v1 v2 =
      some (s.apply (v1.take s.localmesh) ++
              v2.drop (s.apply (v1.take s.localmesh)).length, 1) := by
  have hun : petscVecToField v1 (List.replicate s.localmesh 0) =
      some (v1.take s.localmesh) := by
    simpa using
      petscVecToField_eq_of_le v1 (List.replicate s.localmesh 0) (by simpa)
  have hpk := fieldToPetscVec_eq_of_le (s.apply (v1.take s.localmesh)) v2 h2
  simp [InvertableOperator.functionWrapper, hun, hpk]

/-- A representative fully set-up instance on a mesh with two local elements,
bound to the default `identity` operator. -/
def sEx : InvertableOperator :=
  { operatorFunction := identity, localmesh := 2, matLocalSize := 2,
    matOps := [MatOp.mult], rhs := [0, 0], lhs := [0, 0], doneSetup := true }

/-- PETSc call results in which every call succeeds. -/
def pcZero : PetscCalls :=
  { matCreateShell := 0, matCreateVecs := 0, matShellSetOperation := 0,
    kspCreate := 0, kspSetOperators := 0, kspOptionsA := 0, kspOptionsB := 0,
    kspSetUp := 0 }

/-- PETSc call results in which the final `KSPSetUp` fails with code 1. -/
def pcFail : PetscCalls :=
  { pcZero with kspSetUp := 1 }

/-- The instance state `setup` leaves behind when `KSPSetUp` fails on a
freshly constructed instance with two local elements. -/
def sFailEx : InvertableOperator :=
  { operatorFunction := identity, localmesh := 2, matLocalSize := 2,
    matOps := [MatOp.mult], rhs := [0, 0], lhs := [0, 0], doneSetup := false }

/-- A degenerate external solver that returns the right-hand side unchanged
with converged reason 1. -/
def solveOne : PetscVec → PetscVec × ℤ := fun v => (v, 1)

/-- A broken external solver reporting divergence (reason -3) with a garbage
partial result. -/
def solveDiverged : PetscVec → PetscVec × ℤ := fun v => (v, -3)

/-- An operator used as a rebinding target in witnesses: pointwise doubling. -/
def doubleOp : GridField → GridField := fun v => v.map (fun q => 2 * q)

/-- C2: with the session set up and the right-hand side packed into the
backend vector, `invert` throws the Solve-Failed error carrying the
convergence reason exactly when the reason is non-positive, returning no
solution field; when the reason is positive it returns the solution vector
unpacked into a freshly allocated field. -/
theorem c2_invert_solve_outcome (s : InvertableOperator)
    (kspSolve : PetscVec → PetscVec × ℤ) (b : GridField)
    (hsetup : s.doneSetup = true) (hb : b.length = s.rhs.length)
    (hsol : (kspSolve b).1.length = s.localmesh) :
    ((kspSolve b).2 ≤ 0 →
      s.invert kspSolve b = InvertOutcome.threwSolveFailed (kspSolve b).2) ∧
    (0 < (kspSolve b).2 →
      s.invert kspSolve b = InvertOutcome.ok (kspSolve b).1) := by
  have hpack : fieldToPetscVec b s.rhs = some b := by
    rw [fieldToPetscVec_eq_of_le b s.rhs (le_of_eq hb), hb, List.drop_length,
      List.append_nil]
  have hunpack : petscVecToField (kspSolve b).1 (List.replicate s.localmesh 0) =
      some (kspSolve b).1 := by
    rw [petscVecToField_eq_of_le (kspSolve b).1 (List.replicate s.localmesh 0)
      (by simp [hsol]), List.length_replicate, ← hsol, List.take_length]
  constructor
  · intro hr
    simp [InvertableOperator.invert, hsetup, hpack, hr]
  · intro hr
    simp [InvertableOperator.invert, hsetup, hpack, not_le.mpr hr, hunpack]

/-- Witness for C2 with a converged solve (reason 1) on a concrete session. -/
theorem c2_invert_solve_outcome_witness :
    ((1 : ℤ) ≤ 0 →
      sEx.invert solveOne [1, 2] = InvertOutcome.threwSolveFailed 1) ∧
    ((0 : ℤ) < 1 → sEx.invert solveOne [1, 2] = InvertOutcome.ok [1, 2]) :=
  c2_invert_solve_outcome sEx solveOne [1, 2] rfl rfl rfl

/-- C3: a second `setup()` on an instance whose first `setup()` succeeded
throws the already-setup `BoutException` and leaves the instance unchanged;
in particular the setup-complete flag is never reset. -/
theorem c3_double_setup_fails (s : InvertableOperator) (pc : PetscCalls)
    (h : s.doneSetup = true) :
    s.setup pc = SetupOutcome.threwAlreadySetup s := by
  simp [InvertableOperator.setup, h]

/-- Witness for C3 on a concrete already-set-up session. -/
theorem c3_double_setup_fails_witness :
    sEx.setup pcZero = SetupOutcome.threwAlreadySetup sEx :=
  c3_double_setup_fails sEx pcZero rfl

/-- C4: `invert` on an instance that was never set up throws the
use-before-setup `BoutException`, for every right-hand side and regardless of
the backend solver, so no solve is ever attempted and no backend state is
touched. -/
theorem c4_invert_before_setup (s : InvertableOperator)
    (h : s.doneSetup = false) (kspSolve : PetscVec → PetscVec × ℤ)
    (b : GridField) :
    s.invert kspSolve b = InvertOutcome.threwNotSetup :=
  invert_notSetup s h kspSolve b

/-- Witness for C4 on a freshly constructed instance. -/
theorem c4_invert_before_setup_witness :
    (InvertableOperator.make 2).invert solveOne [1, 2] =
      InvertOutcome.threwNotSetup :=
  c4_invert_before_setup (InvertableOperator.make 2) rfl solveOne [1, 2]

/-- Counterexample for C5: the multiply callback performs one `allocate()`
call on its scratch field on every invocation — here a concrete invocation
reports allocation count 1, refuting the claim that the scratch field is
allocated once at `setup()` and not per invocation. -/
theorem c5_scratch_allocation_counterexample :
    sEx.functionWrapper [1, 2] [0, 0] = some ([1, 2], 1) ∧
    (sEx.functionWrapper [1, 2] [0, 0]).map Prod.snd ≠ some 0 := by
  constructor <;> decide

/-- C5 (amended): `setup` registers exactly the single operation `multiply`
on the shell matrix, and the callback computes the output buffer as
pack(apply(unpack(v1))) — but the scratch field is allocated afresh inside
every invocation (allocation count 1 per call), not once at `setup`. -/
theorem c5_multiply_callback (s : InvertableOperator) (pc : PetscCalls)
    (t : InvertableOperator) (hok : s.setup pc = SetupOutcome.ok t)
    (v1 v2 : PetscVec) (h1 : t.localmesh ≤ v1.length)
    (h2 : (t.apply (v1.take t.localmesh)).length ≤ v2.length) :
    t.matOps = [MatOp.mult] ∧
    t.functionWrapper v1 v2 =
      some (t.apply (v1.take t.localmesh) ++
              v2.drop (t.apply (v1.take t.localmesh)).length, 1) := by
  obtain ⟨-, rfl⟩ := setup_ok_spec s pc t hok
  exact ⟨rfl, functionWrapper_spec _ v1 v2 h1 h2⟩

/-- Witness for C5 (amended) after a concrete successful setup. -/
theorem c5_multiply_callback_witness :
    sEx.matOps = [MatOp.mult] ∧
    sEx.functionWrapper [2, 3] [0, 0] =
      some (sEx.apply ([2, 3].take sEx.localmesh) ++
              ([0, 0].drop (sEx.apply ([2, 3].take sEx.localmesh)).length), 1) :=
  c5_multiply_callback (InvertableOperator.make 2) pcZero sEx rfl [2, 3] [0, 0]
    (by decide) (by decide)

/-- C6: the marshalling routines perform no size check at all.  With a buffer
shorter than the field they run off the end of the raw array (undefined
behaviour, modelled as `none`); with a longer buffer they silently copy only
the field's elements; in no case do they abort with a descriptive message. -/
theorem c6_size_mismatch_eval :
    fieldToPetscVec [(1 : ℚ), 2] [0] = none ∧
    fieldToPetscVec [(1 : ℚ), 2] [0, 0, 0] = some [1, 2, 0] ∧
    petscVecToField [(5 : ℚ)] [0, 0] = none ∧
    petscVecToField [(5 : ℚ), 6, 7] [0, 0] = some [5, 6] := by
  decide

/-- C7: with no functor supplied the constructor binds the default
`identity`, so applying the operator returns its input unchanged. -/
theorem c7_default_identity (n : ℕ) (f g : GridField) :
    identity f = f ∧ (InvertableOperator.make n).apply g = g :=
  ⟨rfl, rfl⟩

/-- C8: with checks enabled (CHECK > 1) and a successful solve producing `x`,
`verify(b, tol)` returns true exactly when the maximum absolute value of the
elementwise residual `apply(x) - b` is strictly below `tol`. -/
theorem c8_verify_residual (s : InvertableOperator) (check : ℕ)
    (kspSolve : PetscVec → PetscVec × ℤ) (b : GridField) (tol : ℚ)
    (x : GridField) (hcheck : 1 < check)
    (hinv : s.invert kspSolve b = InvertOutcome.ok x) :
    (s.verify check kspSolve b tol = some true ↔
      maxAbs (List.zipWith (fun p q => p - q) (s.apply x) b) < tol) := by
  simp [InvertableOperator.verify, hcheck, hinv]

/-- Witness for C8 on a concrete converged identity solve. -/
theorem c8_verify_residual_witness :
    (sEx.verify 2 solveOne [1, 2] 1 = some true ↔
      maxAbs (List.zipWith (fun p q => p - q) (sEx.apply [1, 2]) [1, 2]) < 1) :=
  c8_verify_residual sEx 2 solveOne [1, 2] 1 [1, 2] (by decide) (by decide)

/-- C9: rebinding the functor with `setOperatorFunction` takes effect
immediately, whatever the setup state (which it leaves untouched): the stored
functor becomes `g`, `apply` invokes `g`, and the multiply callback — which
reads the currently bound functor through the matrix context at each
invocation — computes with `g`, not with any previously bound function. -/
theorem c9_rebind_takes_effect (s : InvertableOperator)
    (g : GridField → GridField) (x : GridField) (v1 v2 : PetscVec)
    (h1 : s.localmesh ≤ v1.length)
    (h2 : (g (v1.take s.localmesh)).length ≤ v2.length) :
    (s.setOperatorFunction g).operatorFunction = g ∧
    (s.setOperatorFunction g).apply x = g x ∧
    (s.setOperatorFunction g).doneSetup = s.doneSetup ∧
    (s.setOperatorFunction g).functionWrapper v1 v2 =
      some (g (v1.take s.localmesh) ++
              v2.drop (g (v1.take s.localmesh)).length, 1) :=
  ⟨rfl, rfl, rfl, functionWrapper_spec (s.setOperatorFunction g) v1 v2 h1 h2⟩

/-- Witness for C9: rebinding a set-up identity session to the doubling
operator makes every subsequent application and callback use the doubling. -/
theorem c9_rebind_takes_effect_witness :
    (sEx.setOperatorFunction doubleOp).operatorFunction = doubleOp ∧
    (sEx.setOperatorFunction doubleOp).apply [3] = doubleOp [3] ∧
    (sEx.setOperatorFunction doubleOp).doneSetup = sEx.doneSetup ∧
    (sEx.setOperatorFunction doubleOp).functionWrapper [1, 2] [0, 0] =
      some (doubleOp ([1, 2].take sEx.localmesh) ++
              ([0, 0].drop (doubleOp ([1, 2].take sEx.localmesh)).length), 1) :=
  c9_rebind_takes_effect sEx doubleOp [3] [1, 2] [0, 0] (by decide) (by decide)

/-- C10: when a backend step of `setup()` fails, control leaves `setup`
before the setup-complete flag is set: the instance is still not set up, a
later `invert` still throws the use-before-setup error, and a later `setup`
is not rejected as a double setup. -/
theorem c10_setup_failure_leaves_unset (s : InvertableOperator)
    (pc : PetscCalls) (c : ℤ) (t : InvertableOperator)
    (hfail : s.setup pc = SetupOutcome.petscError c t) :
    t.doneSetup = false ∧
    (∀ kspSolve b, t.invert kspSolve b = InvertOutcome.threwNotSetup) ∧
    (∀ pc2 u, t.setup pc2 ≠ SetupOutcome.threwAlreadySetup u) := by
  obtain ⟨hs, ht⟩ := setup_petscError_spec s pc c t hfail
  exact ⟨ht, fun ks b => invert_notSetup t ht ks b,
    fun pc2 u => setup_not_alreadySetup t ht pc2 u⟩

/-- Witness for C10: a fresh instance whose `KSPSetUp` fails is left with the
flag unset, invert still throws the usage error, and setup can be retried. -/
theorem c10_setup_failure_leaves_unset_witness :
    sFailEx.doneSetup = false ∧
    sFailEx.invert solveOne [1, 2] = InvertOutcome.threwNotSetup ∧
    sFailEx.setup pcZero ≠ SetupOutcome.threwAlreadySetup sFailEx := by
  obtain ⟨h1, h2, h3⟩ :=
    c10_setup_failure_leaves_unset (InvertableOperator.make 2) pcFail 1 sFailEx
      rfl
  exact ⟨h1, h2 solveOne [1, 2], h3 pcZero sFailEx⟩
